import Mathlib

/-!
Verification of the todo-app persistence layer (`src/lib/database.ts`) and its
server-action layer (`src/lib/actions.ts`).

The embedding models the SQLite `todos` table as a list of rows in insertion
(rowid) order together with the next AUTOINCREMENT id.  `CURRENT_TIMESTAMP`
values are modelled as natural numbers supplied by the caller as an explicit
`now` argument (the store generates them; they are comparable values with
second-level resolution, so distinct calls may receive equal timestamps).
`ORDER BY completed ASC, created_at DESC` is modelled as a stable insertion
sort by that key.  SQLite's `LIKE` operator (used by `search`) is modelled
with its documented default semantics: `%` matches any sequence, `_` matches
any single character, and plain characters compare ASCII-case-insensitively.
-/

/-- One row of the `todos` table (`Todo` interface in `database.ts`); the
`completed` column is stored as 0/1 in SQLite and converted to a boolean on
every read path, so it is a `Bool` here. -/
structure Todo where
  id : Nat
  title : String
  completed : Bool
  category : String
  priority : String
  createdAt : Nat
  updatedAt : Nat
deriving DecidableEq

/-- The database state: rows of the `todos` table in rowid order plus the
next AUTOINCREMENT id.  The `categories` table is seeded once at
initialization and never mutated by any operation, so it is kept as the
constant `seededCats` below. -/
structure DB where
  todos : List Todo
  nextId : Nat
deriving DecidableEq

/-- The uniform result shape returned by every server action
(`ActionState` in `actions.ts`). -/
structure ActionState where
  success : Bool
  message : Option String
  error : Option String
  data : Option Todo
deriving DecidableEq

/-- JavaScript whitespace characters trimmed by `String.prototype.trim`
(the ASCII ones plus no-break space; titles in this app are ordinary text). -/
def isJsWhitespace (c : Char) : Bool :=
  c == ' ' || c == '\t' || c == '\n' || c == '\r' ||
  c == '\x0b' || c == '\x0c' || c == ' '

/-- JavaScript `String.prototype.trim`: strip whitespace from both ends. -/
def jsTrim (s : String) : String :=
  ⟨((s.data.dropWhile isJsWhitespace).reverse.dropWhile isJsWhitespace).reverse⟩

/-- ASCII lower-casing, the case folding SQLite's default `LIKE` applies:
only `A`–`Z` fold, all other characters compare exactly. -/
def asciiLower (c : Char) : Char :=
  if 'A' ≤ c ∧ c ≤ 'Z' then Char.ofNat (c.toNat + 32) else c

/-- Character comparison used by SQLite's default `LIKE`:
ASCII-case-insensitive equality. -/
def charLikeEq (p c : Char) : Bool := asciiLower p == asciiLower c

/-- SQLite `LIKE` pattern matching (default, no `ESCAPE` clause):
`%` matches any sequence of characters, `_` matches exactly one character,
and every other pattern character matches ASCII-case-insensitively.
The `%` case tries every suffix of the text, which keeps the recursion
structural on the pattern. -/
def likeMatch : List Char → List Char → Bool
  | [], s => s.isEmpty
  | p :: ps, s =>
    if p = '%' then
      (List.range (s.length + 1)).any fun k => likeMatch ps (s.drop k)
    else
      match s with
      | [] => false
      | c :: cs => ((p == '_') || charLikeEq p c) && likeMatch ps cs

/-- The sort key of `ORDER BY completed ASC, created_at DESC`: `a` may come
before `b` when `a` is incomplete and `b` complete, or when they have the
same completion status and `a` was created no earlier than `b`. -/
def todoR (a b : Todo) : Prop :=
  (a.completed = b.completed ∧ b.createdAt ≤ a.createdAt) ∨
  (a.completed = false ∧ b.completed = true)

instance : DecidableRel todoR := fun a b =>
  inferInstanceAs (Decidable
    ((a.completed = b.completed ∧ b.createdAt ≤ a.createdAt) ∨
     (a.completed = false ∧ b.completed = true)))

instance : IsTotal Todo todoR := ⟨by
  intro a b
  by_cases h : a.completed = b.completed
  · rcases Nat.le_total a.createdAt b.createdAt with h' | h'
    · exact Or.inr (Or.inl ⟨h.symm, h'⟩)
    · exact Or.inl (Or.inl ⟨h, h'⟩)
  · cases ha : a.completed <;> cases hb : b.completed <;>
      simp [ha, hb] at h ⊢ <;> simp [todoR, ha, hb]⟩

instance : IsTrans Todo todoR := ⟨by
  intro a b c hab hbc
  rcases hab with ⟨h1, h2⟩ | ⟨h1, h2⟩ <;> rcases hbc with ⟨h3, h4⟩ | ⟨h3, h4⟩
  · exact Or.inl ⟨h1.trans h3, h4.trans h2⟩
  · exact Or.inr ⟨h1.trans h3, h4⟩
  · exact Or.inr ⟨h1, h3 ▸ h2⟩
  · rw [h2] at h3; exact absurd h3 (by simp)⟩

/-- The `ORDER BY completed ASC, created_at DESC` clause shared by
`getAll`, `getByCategory` and `search`, modelled as a stable sort. -/
def sortTodos (l : List Todo) : List Todo := List.insertionSort todoR l

namespace todoQueries

/-- `todoQueries.getAll`: `SELECT ... FROM todos ORDER BY completed ASC,
created_at DESC`, with the 0/1 `completed` column converted back to a
boolean (already a `Bool` in the model). -/
def getAll (db : DB) : List Todo := sortTodos db.todos

/-- `todoQueries.search`: `SELECT ... FROM todos WHERE title LIKE ?` with
the bound pattern `%` ++ query ++ `%`, same ordering as `getAll`. -/
def search (db : DB) (q : String) : List Todo :=
  sortTodos (db.todos.filter fun t =>
    likeMatch ('%' :: (q.data ++ ['%'])) t.title.data)

/-- `todoQueries.create`: `INSERT INTO todos (title, completed, category,
priority) VALUES (?, ?, ?, ?)` followed by `SELECT ... WHERE id =
lastInsertRowid`.  `created_at` and `updated_at` default to
`CURRENT_TIMESTAMP`, modelled by the explicit `now` argument; the new id is
the AUTOINCREMENT value. -/
def create (db : DB) (now : Nat) (title category priority : String)
    (completed : Bool) : Todo × DB :=
  let t : Todo := ⟨db.nextId, title, completed, category, priority, now, now⟩
  (t, ⟨db.todos ++ [t], db.nextId + 1⟩)

end todoQueries

/-- The subset of columns `todoQueries.update` may receive
(`Partial<Pick<Todo, 'title' | 'completed' | 'category' | 'priority'>>`). -/
structure UpdateFields where
  title : Option String
  completed : Option Bool
  category : Option String
  priority : Option String
deriving DecidableEq

/-- No key present in the `updates` object. -/
def UpdateFields.isEmpty (u : UpdateFields) : Bool :=
  u.title.isNone && u.completed.isNone && u.category.isNone && u.priority.isNone

/-- Effect of `UPDATE todos SET <present fields>, updated_at =
CURRENT_TIMESTAMP WHERE id = ?` on the row it matches: present fields are
overwritten, absent fields kept, `updated_at` refreshed; `id` and
`created_at` are not in the SET clause. -/
def sqlUpdateRow (u : UpdateFields) (now : Nat) (t : Todo) : Todo :=
  { t with
    title := u.title.getD t.title
    completed := u.completed.getD t.completed
    category := u.category.getD t.category
    priority := u.priority.getD t.priority
    updatedAt := now }

namespace todoQueries

/-- `todoQueries.update`: builds a dynamic SET clause (an empty `updates`
object yields invalid SQL, which throws), runs the UPDATE, then re-reads the
row with `SELECT ... WHERE id = ?`.  When the id matches no row the UPDATE
changes nothing and `.get` returns `undefined`, so the subsequent
`row.completed` access throws a `TypeError`; thrown errors are modelled with
`Except.error`. -/
def update (db : DB) (now id : Nat) (u : UpdateFields) :
    Except String (Todo × DB) :=
  if u.isEmpty then .error "SqliteError: incomplete input"
  else
    let todos := db.todos.map fun t =>
      if t.id == id then sqlUpdateRow u now t else t
    match todos.find? (fun t => t.id == id) with
    | some row => .ok (row, ⟨todos, db.nextId⟩)
    | none => .error "TypeError: Cannot read properties of undefined"

/-- Row of the seeded `categories` table: id, name, color. -/
def seededCats : List (Nat × String × String) :=
  [(1, "general", "#6366f1"), (2, "work", "#dc2626"),
   (3, "personal", "#059669"), (4, "shopping", "#d97706")]

end todoQueries

/-- SQLite's BINARY collation, used by `ORDER BY c.name` on a TEXT column:
byte-wise (here: code-point-wise, identical for the ASCII names involved)
lexicographic comparison, non-strict. -/
def binaryCollLe : List Char → List Char → Bool
  | [], _ => true
  | _ :: _, [] => false
  | a :: as, b :: bs =>
    if a.toNat < b.toNat then true
    else if b.toNat < a.toNat then false
    else binaryCollLe as bs

/-- Order on `categories` rows induced by `ORDER BY c.name`. -/
def catNameLe (a b : Nat × String × String) : Prop :=
  binaryCollLe a.2.1.data b.2.1.data = true

instance : DecidableRel catNameLe := fun a b =>
  inferInstanceAs (Decidable (binaryCollLe a.2.1.data b.2.1.data = true))

/-- A category joined with its live todo count, as returned by
`todoQueries.getCategories`. -/
structure Category where
  id : Nat
  name : String
  color : String
  count : Nat
deriving DecidableEq

namespace todoQueries

/-- `todoQueries.getCategories`: `SELECT c.id, c.name, c.color, COUNT(t.id)
FROM categories c LEFT JOIN todos t ON c.name = t.category GROUP BY c.id,
c.name, c.color ORDER BY c.name`.  The LEFT JOIN keeps zero-count
categories; `COUNT(t.id)` counts the joined rows, i.e. the todos whose
`category` column equals the category name exactly (SQL `=` on text is
case-sensitive). -/
def getCategories (db : DB) : List Category :=
  (List.insertionSort catNameLe seededCats).map
    fun c => ⟨c.1, c.2.1, c.2.2,
      (db.todos.filter fun t => t.category == c.2.1).length⟩

end todoQueries

/-!  ### The server-action layer (`actions.ts`)

Each action wraps a store call and maps any thrown failure to a uniform
`{success: false, error: <generic message>}` result.  Form values read with
`formData.get(...) as string` are modelled as `String` arguments, with `""`
standing for both a missing field and an empty submission (both are falsy
in JavaScript, so `x || 'default'` treats them alike). -/

/-- `createTodoAction`: applies the `|| 'general'` / `|| 'medium'` defaults,
validates the title (required and at most 200 characters after trimming),
then inserts via `todoQueries.create` with `completed: false`. -/
def createTodoAction (db : DB) (now : Nat) (title category priority : String) :
    ActionState × DB :=
  let category := if category = "" then "general" else category
  let priority := if priority = "" then "medium" else priority
  if title = "" ∨ (jsTrim title).length = 0 then
    (⟨false, none, some "Todo title is required", none⟩, db)
  else if 200 < (jsTrim title).length then
    (⟨false, none, some "Todo title must be less than 200 characters", none⟩, db)
  else
    let r := todoQueries.create db now (jsTrim title) category priority false
    (⟨true, some "Todo created successfully!", none, some r.1⟩, r.2)

/-- `toggleTodoAction`: looks the todo up in `todoQueries.getAll()`; if it is
absent, returns the dedicated `'Todo not found'` failure without touching the
store; otherwise updates only the `completed` column to the negation of the
stored value.  A thrown store error is caught and mapped to the generic
failure message. -/
def toggleTodoAction (db : DB) (now id : Nat) : ActionState × DB :=
  match (todoQueries.getAll db).find? (fun t => t.id == id) with
  | none => (⟨false, none, some "Todo not found", none⟩, db)
  | some todo =>
    match todoQueries.update db now id ⟨none, some (!todo.completed), none, none⟩ with
    | .ok (t, db') =>
      (⟨true, some (if t.completed then "Todo completed!" else "Todo reopened!"),
        none, some t⟩, db')
    | .error _ => (⟨false, none, some "Failed to update todo. Please try again.", none⟩, db)

/-- `updateTodoAction`: validates the title exactly as `createTodoAction`,
then calls `todoQueries.update` with `{title, category, priority}` (no
existence pre-check); a thrown store error — including the one raised when
the id matches no row — is caught and mapped to the generic failure
message. -/
def updateTodoAction (db : DB) (now id : Nat) (title category priority : String) :
    ActionState × DB :=
  if title = "" ∨ (jsTrim title).length = 0 then
    (⟨false, none, some "Todo title is required", none⟩, db)
  else if 200 < (jsTrim title).length then
    (⟨false, none, some "Todo title must be less than 200 characters", none⟩, db)
  else
    match todoQueries.update db now id
        ⟨some (jsTrim title), none, some category, some priority⟩ with
    | .ok (t, db') => (⟨true, some "Todo updated successfully!", none, some t⟩, db')
    | .error _ => (⟨false, none, some "Failed to update todo. Please try again.", none⟩, db)

/-- `searchTodosAction`: a missing or blank query falls back to
`todoQueries.getAll()`, otherwise the trimmed query is passed to
`todoQueries.search`. -/
def searchTodosAction (db : DB) (q : String) : List Todo :=
  if q = "" ∨ (jsTrim q).length = 0 then todoQueries.getAll db
  else todoQueries.search db (jsTrim q)

/-- A partial todo, as carried by the `update` case of the `TodoItem`
optimistic action (`action.data?: Partial<Todo>`). -/
structure TodoPatch where
  id : Option Nat
  title : Option String
  completed : Option Bool
  category : Option String
  priority : Option String
  createdAt : Option Nat
  updatedAt : Option Nat
deriving DecidableEq

/-- The three optimistic actions handled by the `useOptimistic` reducer in
`TodoItem.tsx`. -/
inductive ItemAction
  | toggle
  | update (data : TodoPatch)
  | delete
deriving DecidableEq

/-- The `useOptimistic` reducer of `TodoItem.tsx`: `toggle` flips the
`completed` flag (`{...currentTodo, completed: !currentTodo.completed}`),
`update` merges the patch over the current todo, `delete` returns the todo
unchanged (removal is handled by the parent component). -/
def todoItemReducer (t : Todo) : ItemAction → Todo
  | .toggle => { t with completed := !t.completed }
  | .update d =>
    ⟨d.id.getD t.id, d.title.getD t.title, d.completed.getD t.completed,
     d.category.getD t.category, d.priority.getD t.priority,
     d.createdAt.getD t.createdAt, d.updatedAt.getD t.updatedAt⟩
  | .delete => t

/-- Look a row up by id directly in the stored table (used only to state
theorems about the post-state of an action). -/
def findTodo (db : DB) (id : Nat) : Option Todo :=
  db.todos.find? (fun t => t.id == id)

/-- The store in its freshly initialized state: no todos, AUTOINCREMENT
starts at 1. -/
def dbEmpty : DB := ⟨[], 1⟩

/-- A title consisting of `n` copies of the letter `a`. -/
def mkA (n : Nat) : String := ⟨List.replicate n 'a'⟩

set_option maxRecDepth 8000

/-!  ### Helper lemmas -/

/-- `find?` by id over any reordering of a table with unique ids returns
exactly the stored row with that id. -/
theorem findRow_of_mem_nodup {l l' : List Todo} {t : Todo} {id : Nat}
    (hperm : l'.Perm l) (hnd : (l.map Todo.id).Nodup)
    (ht : t ∈ l) (hid : t.id = id) :
    l'.find? (fun s => s.id == id) = some t := by
  cases hfind : l'.find? (fun s => s.id == id) with
  | none =>
    rw [List.find?_eq_none] at hfind
    exact absurd (by simp [hid]) (hfind t (hperm.mem_iff.mpr ht))
  | some x =>
    have hx := List.find?_some hfind
    have hxl : x ∈ l := hperm.mem_iff.mp (List.mem_of_find?_eq_some hfind)
    have hxt : x = t := by
      apply List.inj_on_of_nodup_map hnd hxl ht
      simp only [Nat.beq_eq_true_eq] at hx
      rw [hx, hid]
    rw [hxt]

/-- `find?` by id returns nothing when no stored row has that id, over any
reordering of the table. -/
theorem findRow_of_missing {l l' : List Todo} {id : Nat}
    (hperm : l'.Perm l) (h : ∀ t ∈ l, t.id ≠ id) :
    l'.find? (fun s => s.id == id) = none := by
  rw [List.find?_eq_none]
  intro x hx
  simpa using h x (hperm.mem_iff.mp hx)

/-- The SQL UPDATE rewrites rows in place, so the multiset of ids is
untouched. -/
theorem map_update_ids (l : List Todo) (id now : Nat) (u : UpdateFields) :
    (l.map fun s => if s.id == id then sqlUpdateRow u now s else s).map Todo.id
      = l.map Todo.id := by
  rw [List.map_map]
  apply List.map_congr_left
  intro s _
  by_cases h : s.id = id <;> simp [h, sqlUpdateRow]

/-- `todoQueries.update` on a stored id with at least one field returns the
rewritten row and the rewritten table. -/
theorem dbUpdate_found (db : DB) (now : Nat) {id : Nat} (u : UpdateFields)
    {t : Todo} (hnd : (db.todos.map Todo.id).Nodup)
    (ht : t ∈ db.todos) (hid : t.id = id) (hu : u.isEmpty = false) :
    todoQueries.update db now id u =
      .ok (sqlUpdateRow u now t,
        ⟨db.todos.map fun s => if s.id == id then sqlUpdateRow u now s else s,
         db.nextId⟩) := by
  have hmem : sqlUpdateRow u now t ∈
      db.todos.map fun s => if s.id == id then sqlUpdateRow u now s else s := by
    have heq : (if t.id == id then sqlUpdateRow u now t else t)
        = sqlUpdateRow u now t := by simp [hid]
    exact heq ▸ List.mem_map_of_mem _ ht
  have hnd' : ((db.todos.map fun s =>
      if s.id == id then sqlUpdateRow u now s else s).map Todo.id).Nodup := by
    rw [map_update_ids]; exact hnd
  have hfind := findRow_of_mem_nodup (List.Perm.refl _) hnd' hmem
    (show (sqlUpdateRow u now t).id = id by simp [sqlUpdateRow, hid])
  simp only [todoQueries.update, hu, Bool.false_eq_true, if_false, hfind]

/-- `todoQueries.update` on an id matching no row: the UPDATE touches
nothing and the re-read returns no row, so the JavaScript conversion step
throws. -/
theorem dbUpdate_missing (db : DB) (now : Nat) {id : Nat} (u : UpdateFields)
    (h : ∀ t ∈ db.todos, t.id ≠ id) (hu : u.isEmpty = false) :
    todoQueries.update db now id u =
      .error "TypeError: Cannot read properties of undefined" := by
  have hfind : (db.todos.map fun s =>
      if s.id == id then sqlUpdateRow u now s else s).find?
        (fun s => s.id == id) = none := by
    rw [List.find?_eq_none]
    intro x hx
    rcases List.mem_map.mp hx with ⟨s, hs, rfl⟩
    have hsid : (s.id == id) = false := by simpa using h s hs
    simp [hsid]
  simp only [todoQueries.update, hu, Bool.false_eq_true, if_false, hfind]

/-- A leading `%` matches by discarding some prefix of the text. -/
theorem likeMatch_pct_cons (ps s : List Char) :
    likeMatch ('%' :: ps) s = true ↔
      ∃ k ≤ s.length, likeMatch ps (s.drop k) = true := by
  simp [likeMatch, List.any_eq_true, List.mem_range, Nat.lt_succ_iff]

/-- The pattern `%` alone matches every text. -/
theorem likeMatch_single_pct (s : List Char) : likeMatch ['%'] s = true := by
  rw [likeMatch_pct_cons]
  exact ⟨s.length, Nat.le_refl _, by simp [likeMatch]⟩

/-- The pattern `%%` (bound for an empty query) matches every text. -/
theorem likeMatch_all (s : List Char) : likeMatch ['%', '%'] s = true := by
  rw [likeMatch_pct_cons]
  exact ⟨0, Nat.zero_le _, by simpa using likeMatch_single_pct s⟩

/-- A non-wildcard pattern character consumes exactly one text character,
ASCII-case-insensitively. -/
theorem likeMatch_cons_cons {c : Char} (hc : c ≠ '%') (hu : c ≠ '_')
    (ps : List Char) (d : Char) (cs : List Char) :
    likeMatch (c :: ps) (d :: cs) = (charLikeEq c d && likeMatch ps cs) := by
  simp [likeMatch, hc, beq_eq_false_iff_ne.mpr hu]

/-- A non-wildcard pattern character never matches the empty text. -/
theorem likeMatch_cons_nil {c : Char} (hc : c ≠ '%') (ps : List Char) :
    likeMatch (c :: ps) [] = false := by
  simp [likeMatch, hc]

/-- A wildcard-free query followed by `%` matches exactly the texts whose
ASCII-lowercasing starts with the query's ASCII-lowercasing. -/
theorem likeMatch_plain_pct (q : List Char)
    (hq : ∀ c ∈ q, c ≠ '%' ∧ c ≠ '_') (s : List Char) :
    likeMatch (q ++ ['%']) s = true ↔
      (q.map asciiLower) <+: (s.map asciiLower) := by
  induction q generalizing s with
  | nil => simpa using likeMatch_single_pct s
  | cons c q' ih =>
    have hc := hq c (List.mem_cons_self _ _)
    have hq' : ∀ x ∈ q', x ≠ '%' ∧ x ≠ '_' :=
      fun x hx => hq x (List.mem_cons_of_mem _ hx)
    cases s with
    | nil =>
      rw [List.cons_append, likeMatch_cons_nil hc.1]
      simp
    | cons d s' =>
      rw [List.cons_append, likeMatch_cons_cons hc.1 hc.2]
      simp only [Bool.and_eq_true, List.map_cons, List.cons_prefix_cons,
        ih hq' s', charLikeEq, beq_iff_eq]

/-- The pattern `%q%` with a wildcard-free `q` matches exactly the texts
whose ASCII-lowercasing contains the ASCII-lowercasing of `q` as a
contiguous substring. -/
theorem likeMatch_contains (q s : List Char)
    (hq : ∀ c ∈ q, c ≠ '%' ∧ c ≠ '_') :
    likeMatch ('%' :: (q ++ ['%'])) s = true ↔
      (q.map asciiLower) <:+: (s.map asciiLower) := by
  rw [likeMatch_pct_cons]
  constructor
  · rintro ⟨k, hk, hm⟩
    have hpre : (q.map asciiLower) <+: ((s.drop k).map asciiLower) :=
      (likeMatch_plain_pct q hq _).mp hm
    rw [List.map_drop] at hpre
    exact List.infix_iff_prefix_suffix.mpr
      ⟨(s.map asciiLower).drop k, hpre, List.drop_suffix _ _⟩
  · intro hinf
    rcases List.infix_iff_prefix_suffix.mp hinf with ⟨t', hpre, hsuf⟩
    rcases hsuf with ⟨u, hu⟩
    refine ⟨u.length, ?_, (likeMatch_plain_pct q hq _).mpr ?_⟩
    · have := congrArg List.length hu
      simp only [List.length_append, List.length_map] at this
      omega
    · rw [List.map_drop]
      have hdrop : (s.map asciiLower).drop u.length = t' := by
        rw [← hu, List.drop_left]
      rw [hdrop]
      exact hpre

/-!  ### Claims -/

/-- C2 (amended): for every query `q` containing no SQL `LIKE` wildcard
character (`%` or `_`) and every stored task `t`, `t` is in the result of
`search(q)` iff `t`'s title contains `q` as an ASCII-case-insensitive
substring.  (SQLite's default `LIKE` folds `A`–`Z` to `a`–`z`, so the match
is not case-sensitivity-preserving, and `%`/`_` in the query act as
wildcards.) -/
theorem search_membership_c2 (db : DB) (q : String) (t : Todo)
    (hq : ∀ c ∈ q.data, c ≠ '%' ∧ c ≠ '_') :
    t ∈ todoQueries.search db q ↔
      t ∈ db.todos ∧
        (q.data.map asciiLower) <:+: (t.title.data.map asciiLower) := by
  unfold todoQueries.search sortTodos
  rw [(List.perm_insertionSort todoR _).mem_iff, List.mem_filter]
  exact and_congr_right fun _ => likeMatch_contains q.data t.title.data hq

/-- The sole todo of the C2 counterexample store, titled `"Buy milk"`. -/
def c2todo : Todo := ⟨1, "Buy milk", false, "shopping", "medium", 0, 0⟩

/-- A store holding only `c2todo`. -/
def c2db : DB := ⟨[c2todo], 2⟩

/-- C2 as stated is false: `search("buy")` returns the task titled
`"Buy milk"` although `"buy"` is not a case-sensitive substring of
`"Buy milk"` — SQLite's default `LIKE` is ASCII-case-insensitive. -/
theorem search_membership_c2_cex :
    c2todo ∈ todoQueries.search c2db "buy" ∧
    ¬ ("buy".data <:+: c2todo.title.data) := by decide

/-- Witness for C2: the amended equivalence evaluated at the concrete
store `c2db` and the wildcard-free query `"milk"`. -/
theorem search_membership_c2_w :
    c2todo ∈ todoQueries.search c2db "milk" ↔
      c2todo ∈ c2db.todos ∧
        ("milk".data.map asciiLower) <:+: (c2todo.title.data.map asciiLower) :=
  search_membership_c2 c2db "milk" c2todo (by decide)

/-- C3 (amended): `listAll()` returns a permutation of every stored task,
ordered so that whenever `A` appears before `B`, either `A` is incomplete
and `B` completed, or they share a completion status and
`A.created_at ≥ B.created_at`.  (The original "A before B iff
A.created_at ≥ B.created_at" cannot hold when two same-status tasks share a
creation timestamp — second-resolution timestamps make such ties reachable —
so the order direction is the most that holds.) -/
theorem getAll_order_c3 (db : DB) :
    (todoQueries.getAll db).Perm db.todos ∧
    List.Pairwise (fun a b =>
      (a.completed = b.completed ∧ b.createdAt ≤ a.createdAt) ∨
      (a.completed = false ∧ b.completed = true))
      (todoQueries.getAll db) :=
  ⟨List.perm_insertionSort todoR db.todos,
   List.sorted_insertionSort todoR db.todos⟩

/-- First task of the C3 counterexample store (created at time 5). -/
def c3t1 : Todo := ⟨1, "first", false, "general", "medium", 5, 5⟩

/-- Second task of the C3 counterexample store (also created at time 5). -/
def c3t2 : Todo := ⟨2, "second", false, "general", "medium", 5, 5⟩

/-- A store with two incomplete tasks sharing a creation timestamp. -/
def c3db : DB := ⟨[c3t1, c3t2], 3⟩

/-- C3 as stated is false: in a store with two incomplete tasks created in
the same second, `c3t2.created_at ≥ c3t1.created_at` holds, yet `c3t2` does
not come before `c3t1` in `listAll()` (both are in the output, with `c3t1`
at index 0 and `c3t2` at index 1), refuting the claimed "A before B iff
A.created_at ≥ B.created_at" at `A := c3t2`, `B := c3t1`. -/
theorem getAll_order_c3_cex :
    c3t1 ∈ c3db.todos ∧ c3t2 ∈ c3db.todos ∧
    c3t2.completed = c3t1.completed ∧
    c3t1.createdAt ≤ c3t2.createdAt ∧
    c3t1 ∈ todoQueries.getAll c3db ∧ c3t2 ∈ todoQueries.getAll c3db ∧
    ¬ ((todoQueries.getAll c3db).indexOf c3t2 <
        (todoQueries.getAll c3db).indexOf c3t1) := by decide

/-- C7: `getCategoriesWithCounts()` returns exactly the four seeded
categories in alphabetical order — including those with zero matching
tasks — and each count equals the number of stored tasks whose `category`
field equals that category's name exactly. -/
theorem getCategories_c7 (db : DB) :
    (todoQueries.getCategories db).map Category.name =
      ["general", "personal", "shopping", "work"] ∧
    ∀ c ∈ todoQueries.getCategories db,
      c.count = db.todos.countP (fun t => t.category == c.name) := by
  refine ⟨rfl, ?_⟩
  intro c hc
  have hs : todoQueries.getCategories db =
      [⟨1, "general", "#6366f1",
        (db.todos.filter fun t => t.category == "general").length⟩,
       ⟨3, "personal", "#059669",
        (db.todos.filter fun t => t.category == "personal").length⟩,
       ⟨4, "shopping", "#d97706",
        (db.todos.filter fun t => t.category == "shopping").length⟩,
       ⟨2, "work", "#dc2626",
        (db.todos.filter fun t => t.category == "work").length⟩] := rfl
  rw [hs] at hc
  simp only [List.mem_cons, List.not_mem_nil, or_false] at hc
  rcases hc with rfl | rfl | rfl | rfl <;>
    simp [List.countP_eq_length_filter]

/-- C8: a search with an empty or blank (whitespace-only) query returns the
same sequence of tasks as `listAll()`: the action layer short-circuits blank
queries to `getAll`, and even the store-level `search("")` binds the
all-matching pattern `%%`, so it equals `getAll` as well. -/
theorem search_blank_c8 (db : DB) (q : String) (h : (jsTrim q).length = 0) :
    searchTodosAction db q = todoQueries.getAll db ∧
    todoQueries.search db "" = todoQueries.getAll db := by
  refine ⟨by simp [searchTodosAction, h], ?_⟩
  unfold todoQueries.search todoQueries.getAll
  have hf : db.todos.filter
      (fun t => likeMatch ('%' :: ("".data ++ ['%'])) t.title.data)
        = db.todos := by
    rw [List.filter_eq_self]
    intro t _
    exact likeMatch_all t.title.data
  rw [hf]

/-- A small store used to witness C8. -/
def c8db : DB :=
  ⟨[⟨1, "Alpha", true, "work", "high", 3, 4⟩,
    ⟨2, "Beta", false, "personal", "low", 9, 9⟩], 3⟩

/-- Witness for C8: the blank query `" "` on a concrete two-task store. -/
theorem search_blank_c8_w :
    searchTodosAction c8db " " = todoQueries.getAll c8db ∧
    todoQueries.search c8db "" = todoQueries.getAll c8db :=
  search_blank_c8 c8db " " (by decide)

/-- C4: for every title whose trimmed length is between 1 and 200
characters, `create` succeeds and the returned task has `completed = false`,
with category and priority defaulting to `"general"` and `"medium"` when
omitted; for every title whose trimmed length exceeds 200 characters,
`create` fails with the validation error and leaves the store unchanged. -/
theorem create_valid_c4 (db : DB) (now : Nat)
    (title category priority : String) :
    (1 ≤ (jsTrim title).length → (jsTrim title).length ≤ 200 →
      (createTodoAction db now title category priority).1.success = true ∧
      ∃ t, (createTodoAction db now title category priority).1.data = some t ∧
        t.completed = false ∧
        (category = "" → t.category = "general") ∧
        (priority = "" → t.priority = "medium")) ∧
    (200 < (jsTrim title).length →
      createTodoAction db now title category priority =
        (⟨false, none, some "Todo title must be less than 200 characters",
          none⟩, db)) := by
  constructor
  · intro h1 h2
    have hne : ¬ (title = "" ∨ (jsTrim title).length = 0) := by
      rintro (rfl | h0)
      · simp [jsTrim] at h1
      · omega
    have hle : ¬ (200 < (jsTrim title).length) := by omega
    simp only [createTodoAction, if_neg hne, if_neg hle]
    refine ⟨by trivial, _, by trivial, by trivial, ?_, ?_⟩ <;> rintro rfl <;>
      simp [todoQueries.create]
  · intro h3
    have hne : ¬ (title = "" ∨ (jsTrim title).length = 0) := by
      rintro (rfl | h0)
      · simp [jsTrim] at h3
      · omega
    simp only [createTodoAction, if_neg hne, if_pos h3]

/-- Witness for C4: a 200-`a` title is created successfully with the
defaulted category/priority, and a 201-`a` title is rejected with the
length validation error. -/
theorem create_valid_c4_w :
    ((createTodoAction dbEmpty 0 (mkA 200) "" "").1.success = true ∧
      ∃ t, (createTodoAction dbEmpty 0 (mkA 200) "" "").1.data = some t ∧
        t.completed = false ∧
        (("" : String) = "" → t.category = "general") ∧
        (("" : String) = "" → t.priority = "medium")) ∧
    createTodoAction dbEmpty 0 (mkA 201) "" "" =
      (⟨false, none, some "Todo title must be less than 200 characters",
        none⟩, dbEmpty) :=
  ⟨(create_valid_c4 dbEmpty 0 (mkA 200) "" "").1 (by decide) (by decide),
   (create_valid_c4 dbEmpty 0 (mkA 201) "" "").2 (by decide)⟩

/-- C5: for every title that is empty or whitespace-only after trimming,
`create` fails with the required-title validation error and the store is
returned unchanged — no row is persisted. -/
theorem create_blank_c5 (db : DB) (now : Nat)
    (title category priority : String) (h : (jsTrim title).length = 0) :
    createTodoAction db now title category priority =
      (⟨false, none, some "Todo title is required", none⟩, db) := by
  simp only [createTodoAction, if_pos (Or.inr h)]

/-- Witness for C5: a whitespace-only title on a concrete store. -/
theorem create_blank_c5_w :
    createTodoAction dbEmpty 3 "   " "work" "high" =
      (⟨false, none, some "Todo title is required", none⟩, dbEmpty) :=
  create_blank_c5 dbEmpty 3 "   " "work" "high" (by decide)

/-- A row rewritten in place by the UPDATE stays in the rewritten table. -/
theorem mem_map_update {l : List Todo} {t : Todo} {id : Nat}
    (u : UpdateFields) (now : Nat) (ht : t ∈ l) (hid : t.id = id) :
    sqlUpdateRow u now t ∈
      l.map fun s => if s.id == id then sqlUpdateRow u now s else s := by
  have heq : (if t.id == id then sqlUpdateRow u now t else t)
      = sqlUpdateRow u now t := by simp [hid]
  exact heq ▸ List.mem_map_of_mem _ ht

/-- `updateTodoAction` on a valid title and an id matching no stored row
passes validation, then the store throws on the missing row and the catch
block returns the generic failure with the store unchanged. -/
theorem updateAction_missing (db : DB) (now id : Nat)
    (title category priority : String)
    (hmiss : ∀ t ∈ db.todos, t.id ≠ id)
    (h1 : 1 ≤ (jsTrim title).length) (h2 : (jsTrim title).length ≤ 200) :
    updateTodoAction db now id title category priority =
      (⟨false, none, some "Failed to update todo. Please try again.", none⟩,
       db) := by
  have hne : ¬ (title = "" ∨ (jsTrim title).length = 0) := by
    rintro (rfl | h0)
    · simp [jsTrim] at h1
    · omega
  have hle : ¬ (200 < (jsTrim title).length) := by omega
  have herr := dbUpdate_missing db now
    (⟨some (jsTrim title), none, some category, some priority⟩ : UpdateFields)
    hmiss rfl
  simp only [updateTodoAction, if_neg hne, if_neg hle, herr]

/-- C1 (amended): for every id that does not identify an existing task (and
any valid replacement title), `updateTodoAction` fails — `success` is
`false` and no task is returned — but with the generic error `'Failed to
update todo. Please try again.'` produced by the catch-all handler around a
`TypeError` thrown on the missing row, not with a failure identifying the
missing-id condition; the store is left unchanged. -/
theorem update_missing_c1 (db : DB) (now id : Nat)
    (title category priority : String)
    (hmiss : ∀ t ∈ db.todos, t.id ≠ id)
    (h1 : 1 ≤ (jsTrim title).length) (h2 : (jsTrim title).length ≤ 200) :
    updateTodoAction db now id title category priority =
      (⟨false, none, some "Failed to update todo. Please try again.", none⟩,
       db) :=
  updateAction_missing db now id title category priority hmiss h1 h2

/-- C1 as stated is false: updating the missing id 1 in an empty store does
fail without returning a task, but the failure is the generic retry message,
not one identifying the missing-id condition (the repository's only
missing-id failure, `'Todo not found'`, is never produced by update). -/
theorem update_missing_c1_cex :
    (updateTodoAction dbEmpty 0 1 "x" "general" "medium").1.success = false ∧
    (updateTodoAction dbEmpty 0 1 "x" "general" "medium").1.data = none ∧
    (updateTodoAction dbEmpty 0 1 "x" "general" "medium").1.error =
      some "Failed to update todo. Please try again." ∧
    (updateTodoAction dbEmpty 0 1 "x" "general" "medium").1.error ≠
      some "Todo not found" := by decide

/-- The single-task store used to witness C1. -/
def c1db : DB := ⟨[⟨1, "keep", false, "general", "medium", 2, 2⟩], 2⟩

/-- Witness for C1 (amended): updating the absent id 9 in a one-task store
returns the generic failure and leaves the store unchanged. -/
theorem update_missing_c1_w :
    updateTodoAction c1db 5 9 "new title" "work" "low" =
      (⟨false, none, some "Failed to update todo. Please try again.", none⟩,
       c1db) :=
  update_missing_c1 c1db 5 9 "new title" "work" "low"
    (by decide) (by decide) (by decide)

/-- C10: for every id that does not identify an existing task, the toggle
action returns `{success: false, error: 'Todo not found'}` and leaves the
stored task set unchanged (its existence pre-check fires before any update);
in contrast, `updateTodoAction` performs no such pre-check and surfaces only
the generic catch-all failure for the same missing id. -/
theorem toggle_missing_c10 (db : DB) (now id : Nat)
    (hmiss : ∀ t ∈ db.todos, t.id ≠ id) :
    toggleTodoAction db now id =
      (⟨false, none, some "Todo not found", none⟩, db) ∧
    ∀ title category priority : String,
      1 ≤ (jsTrim title).length → (jsTrim title).length ≤ 200 →
      updateTodoAction db now id title category priority =
        (⟨false, none, some "Failed to update todo. Please try again.",
          none⟩, db) := by
  constructor
  · have hfind : (todoQueries.getAll db).find? (fun s => s.id == id) = none :=
      findRow_of_missing (List.perm_insertionSort todoR db.todos) hmiss
    simp only [toggleTodoAction, hfind]
  · intro title category priority h1 h2
    exact updateAction_missing db now id title category priority hmiss h1 h2

/-- The single-task store used to witness C10. -/
def c10db : DB := ⟨[⟨3, "solo", true, "personal", "low", 1, 1⟩], 4⟩

/-- Witness for C10: toggling the absent id 7 returns the not-found failure
with the store unchanged, while updating the same absent id returns only the
generic failure. -/
theorem toggle_missing_c10_w :
    toggleTodoAction c10db 8 7 =
      (⟨false, none, some "Todo not found", none⟩, c10db) ∧
    updateTodoAction c10db 8 7 "abc" "general" "high" =
      (⟨false, none, some "Failed to update todo. Please try again.", none⟩,
       c10db) :=
  ⟨(toggle_missing_c10 c10db 8 7 (by decide)).1,
   (toggle_missing_c10 c10db 8 7 (by decide)).2 "abc" "general" "high"
     (by decide) (by decide)⟩

/-- C9: a successful `update(id, partialFields)` on an existing id with a
non-empty field subset returns the full post-update row — which is the
stored row itself — in which every field outside the subset is unchanged,
the identifier and the created timestamp are never modified, the updated
timestamp is refreshed to the current time, and rows with other ids are
untouched. -/
theorem update_frame_c9 (db : DB) (now id : Nat) (u : UpdateFields)
    (t : Todo) (hnd : (db.todos.map Todo.id).Nodup) (ht : t ∈ db.todos)
    (hid : t.id = id) (hu : u.isEmpty = false) :
    ∃ db', todoQueries.update db now id u = .ok (sqlUpdateRow u now t, db') ∧
      (sqlUpdateRow u now t).id = t.id ∧
      (sqlUpdateRow u now t).createdAt = t.createdAt ∧
      (sqlUpdateRow u now t).updatedAt = now ∧
      (u.title = none → (sqlUpdateRow u now t).title = t.title) ∧
      (u.completed = none → (sqlUpdateRow u now t).completed = t.completed) ∧
      (u.category = none → (sqlUpdateRow u now t).category = t.category) ∧
      (u.priority = none → (sqlUpdateRow u now t).priority = t.priority) ∧
      sqlUpdateRow u now t ∈ db'.todos ∧
      ∀ s ∈ db'.todos, s.id ≠ id → s ∈ db.todos := by
  refine ⟨_, dbUpdate_found db now u hnd ht hid hu, rfl, rfl, rfl,
    ?_, ?_, ?_, ?_, mem_map_update u now ht hid, ?_⟩
  · intro h0; simp [sqlUpdateRow, h0]
  · intro h0; simp [sqlUpdateRow, h0]
  · intro h0; simp [sqlUpdateRow, h0]
  · intro h0; simp [sqlUpdateRow, h0]
  · intro s hs hsid
    rcases List.mem_map.mp hs with ⟨x, hx, rfl⟩
    by_cases hxid : x.id = id
    · exact absurd (by simp [sqlUpdateRow, hxid]) hsid
    · simpa [hxid] using hx

/-- The stored row of the C9 witness store. -/
def c9t : Todo := ⟨1, "old title", false, "general", "medium", 4, 4⟩

/-- A store holding only `c9t`. -/
def c9db : DB := ⟨[c9t], 2⟩

/-- A field subset updating only the title. -/
def c9u : UpdateFields := ⟨some "new title", none, none, none⟩

/-- Witness for C9: a title-only update of the stored row `c9t` at time 6
succeeds, keeps id/completed/category/priority/created, and refreshes the
updated timestamp. -/
theorem update_frame_c9_w :
    ∃ db', todoQueries.update c9db 6 1 c9u = .ok (sqlUpdateRow c9u 6 c9t, db') ∧
      (sqlUpdateRow c9u 6 c9t).id = c9t.id ∧
      (sqlUpdateRow c9u 6 c9t).createdAt = c9t.createdAt ∧
      (sqlUpdateRow c9u 6 c9t).updatedAt = 6 ∧
      (c9u.title = none → (sqlUpdateRow c9u 6 c9t).title = c9t.title) ∧
      (c9u.completed = none →
        (sqlUpdateRow c9u 6 c9t).completed = c9t.completed) ∧
      (c9u.category = none →
        (sqlUpdateRow c9u 6 c9t).category = c9t.category) ∧
      (c9u.priority = none →
        (sqlUpdateRow c9u 6 c9t).priority = c9t.priority) ∧
      sqlUpdateRow c9u 6 c9t ∈ db'.todos ∧
      ∀ s ∈ db'.todos, s.id ≠ 1 → s ∈ c9db.todos :=
  update_frame_c9 c9db 6 1 c9u c9t (by decide) (by decide) (by decide)
    (by decide)

/-- `toggleTodoAction` on a stored id: the pre-check finds the row, the
store flips its `completed` column, and the action returns the confirmed
row together with the rewritten store. -/
theorem toggle_found (db : DB) (now id : Nat) (t : Todo)
    (hnd : (db.todos.map Todo.id).Nodup) (ht : t ∈ db.todos)
    (hid : t.id = id) :
    toggleTodoAction db now id =
      (⟨true, some (if !t.completed then "Todo completed!"
          else "Todo reopened!"), none,
        some (sqlUpdateRow ⟨none, some (!t.completed), none, none⟩ now t)⟩,
       ⟨db.todos.map fun s => if s.id == id then
           sqlUpdateRow ⟨none, some (!t.completed), none, none⟩ now s else s,
        db.nextId⟩) := by
  have hfind : (todoQueries.getAll db).find? (fun s => s.id == id) = some t :=
    findRow_of_mem_nodup (List.perm_insertionSort todoR db.todos) hnd ht hid
  have hupd := dbUpdate_found db now
    (⟨none, some (!t.completed), none, none⟩ : UpdateFields) hnd ht hid rfl
  simp only [toggleTodoAction, hfind, hupd]
  rfl

/-- C6: toggling the same existing task twice (both toggles confirmed)
returns its completion flag to the original value — the stored row after the
second toggle has the original `completed` — and the optimistic toggle
reducer of `TodoItem` is its own inverse: applying it twice to any todo
yields the original todo. -/
theorem toggle_twice_c6 (db : DB) (n1 n2 id : Nat) (t : Todo)
    (hnd : (db.todos.map Todo.id).Nodup) (ht : t ∈ db.todos)
    (hid : t.id = id) :
    (∃ t2, findTodo (toggleTodoAction
        (toggleTodoAction db n1 id).2 n2 id).2 id = some t2 ∧
      t2.completed = t.completed) ∧
    ∀ s : Todo, todoItemReducer (todoItemReducer s .toggle) .toggle = s := by
  constructor
  · have h1 := toggle_found db n1 id t hnd ht hid
    have hnd1 : (((db.todos.map fun s => if s.id == id then
        sqlUpdateRow ⟨none, some (!t.completed), none, none⟩ n1 s else s)).map
          Todo.id).Nodup := by
      rw [map_update_ids]; exact hnd
    have ht1 : sqlUpdateRow ⟨none, some (!t.completed), none, none⟩ n1 t ∈
        db.todos.map fun s => if s.id == id then
          sqlUpdateRow ⟨none, some (!t.completed), none, none⟩ n1 s else s :=
      mem_map_update _ _ ht hid
    have hid1 : (sqlUpdateRow ⟨none, some (!t.completed), none, none⟩
        n1 t).id = id := by simp [sqlUpdateRow, hid]
    have h2 := toggle_found
      ⟨db.todos.map fun s => if s.id == id then
          sqlUpdateRow ⟨none, some (!t.completed), none, none⟩ n1 s else s,
        db.nextId⟩ n2 id _ hnd1 ht1 hid1
    simp only [h1, h2, findTodo]
    refine ⟨_, findRow_of_mem_nodup (List.Perm.refl _) ?_
      (mem_map_update _ _ ht1 hid1) (by simp [sqlUpdateRow, hid]), ?_⟩
    · rw [map_update_ids]; exact hnd1
    · simp [sqlUpdateRow]
  · intro s
    simp [todoItemReducer]

/-- The task toggled twice in the C6 witness. -/
def c6t : Todo := ⟨2, "toggle me", false, "work", "high", 10, 10⟩

/-- A two-task store containing `c6t`. -/
def c6db : DB := ⟨[⟨1, "other", true, "general", "low", 3, 3⟩, c6t], 3⟩

/-- Witness for C6: toggling task 2 at times 11 and 12 leaves its stored
completion flag at the original value, and the optimistic reducer applied
twice to `c6t` returns `c6t`. -/
theorem toggle_twice_c6_w :
    (∃ t2, findTodo (toggleTodoAction
        (toggleTodoAction c6db 11 2).2 12 2).2 2 = some t2 ∧
      t2.completed = c6t.completed) ∧
    todoItemReducer (todoItemReducer c6t .toggle) .toggle = c6t :=
  ⟨(toggle_twice_c6 c6db 11 12 2 c6t (by decide) (by decide) (by decide)).1,
   (toggle_twice_c6 c6db 11 12 2 c6t (by decide) (by decide) (by decide)).2
     c6t⟩
